import Mathlib

/-!
# Verification model of `github.com/spascareli/space`

A shallow embedding of the retry package (`pkg/retry`), the launch service and the
repository decorators (`application`) and the HTTP adapter (`api`), followed by the
theorems that settle the specification's claims against that embedding.

Conventions of the embedding

* A Go `error` interface value is an `Option GoError`; `none` is the nil interface.
* Code with side effects is a function on an explicit world state `σ`:
  a Go `func() error` is a `σ → Option GoError × σ`.
* `time.Duration` and `int` are `Int`; the one place where the source multiplies in
  `int64` wraps explicitly (`wrapInt64`).
* An unbounded `for` loop takes a fuel argument and returns `none` when the fuel is used up;
  the theorems show that fuel `≥ attemps` always yields a result.
* The `context.Context` arguments are never read by the source and are left out.
-/

set_option autoImplicit false

/-! ## Go error values and `github.com/pkg/errors` -/

/-- The classification methods the dynamic type of an error value may carry.
`none`: the type does not have the method (the interface assertion fails);
`some b`: the type has the method and it returns `b`. -/
structure Methods where
  Missing : Option Bool := none
  Temporary : Option Bool := none
  Unauthorized : Option Bool := none
  Invalid : Option Bool := none
deriving DecidableEq, Repr

/-- A non-nil Go error value: its `Error()` text, its classification methods and,
when its type has a `Cause() error` method, what that method returns. -/
inductive GoError where
  /-- a value whose type has no `Cause` method -/
  | value (text : String) (methods : Methods)
  /-- a value whose `Cause()` returns nil -/
  | causerNil (text : String) (methods : Methods)
  /-- a value whose `Cause()` returns the non-nil error `cause` -/
  | causer (text : String) (methods : Methods) (cause : GoError)
deriving DecidableEq, Repr

namespace GoError

/-- The `Error()` method. -/
def Error : GoError → String
  | value t _ => t
  | causerNil t _ => t
  | causer t _ _ => t

/-- The classification methods of the value itself (not of its cause). -/
def methods : GoError → Methods
  | value _ m => m
  | causerNil _ m => m
  | causer _ m _ => m

/-- The loop of `errors.Cause` started on a non-nil error: follow `Cause()` while the
value has that method; the result is nil when a `Cause()` returns nil. -/
def deepest : GoError → Option GoError
  | value t m => some (value t m)
  | causerNil _ _ => none
  | causer _ _ c => deepest c

end GoError

namespace errors

/-- `errors.Cause`: the deepest cause of `err`. -/
def Cause (err : Option GoError) : Option GoError :=
  match err with
  | none => none
  | some e => e.deepest

/-- `errors.New`: a `*fundamental`, which has neither `Cause` nor classification methods. -/
def New (message : String) : Option GoError :=
  some (GoError.value message {})

/-- `errors.Wrap`: nil stays nil; otherwise `&withStack{&withMessage{cause: err, msg}, callers()}`.
Both layers have a `Cause` method and no classification method; the text of both is
`message + ": " + err.Error()`. The recorded call stack is not observable here. -/
def Wrap (err : Option GoError) (message : String) : Option GoError :=
  match err with
  | none => none
  | some e =>
    let withMessage := GoError.causer (message ++ ": " ++ e.Error) {} e
    some (GoError.causer withMessage.Error {} withMessage)

end errors

/-! ## Machine integers -/

/-- Conversion to `int64`: two's-complement wrap-around. -/
def wrapInt64 (x : Int) : Int :=
  (x + 2 ^ 63) % 2 ^ 64 - 2 ^ 63

/-! ## Package `retry` (`pkg/retry/retry.go`) -/

namespace retry

/-- The struct `Retrier`; `baseTimeout` is a `time.Duration` in nanoseconds. -/
structure Retrier where
  baseTimeout : Int
  attemps : Int
deriving DecidableEq, Repr

/-- The constant `time.Second`. -/
def Second : Int := 1000000000

/-- The package variable `defaultRetrier`. -/
def defaultRetrier : Retrier :=
  { baseTimeout := 1 * Second, attemps := 3 }

/-- The function `Default`. -/
def Default : Retrier := defaultRetrier

/-- The function `isTemporary` of package `retry`. -/
def isTemporary (err : Option GoError) : Bool :=
  match errors.Cause err with
  | some e =>
    match e.methods.Temporary with
    | some b => b
    | none => false
  | none => false

/-- The argument the loop passes to `sleep`:
`time.Duration(int64(attempt) * int64(r.baseTimeout))`. -/
def backoff (r : Retrier) (attempt : Int) : Int :=
  wrapInt64 (attempt * r.baseTimeout)

/-- The `for attempt := 1; ; attempt++` loop of `(*Retrier).IfTemporary`, entered with the
given `attempt`. `fn` is the retried function and `sleep` the package variable `sleep`.
The increment is exact: it runs only when `attempt < r.attemps`, so it cannot leave the
range of `int`. -/
def Retrier.loop {σ : Type} (r : Retrier) (fn : σ → Option GoError × σ) (sleep : Int → σ → σ) :
    Nat → Int → σ → Option (Option GoError × σ)
  | 0, _, _ => none
  | fuel + 1, attempt, s =>
    let (err, s1) := fn s
    if !isTemporary err || decide (attempt ≥ r.attemps) then
      some (err, s1)
    else
      Retrier.loop r fn sleep fuel (attempt + 1) (sleep (backoff r attempt) s1)

/-- The method `(*Retrier).IfTemporary`. -/
def Retrier.IfTemporary {σ : Type} (fuel : Nat) (r : Retrier) (fn : σ → Option GoError × σ)
    (sleep : Int → σ → σ) (s : σ) : Option (Option GoError × σ) :=
  Retrier.loop r fn sleep fuel 1 s

/-- The package-level function `IfTemporary`. -/
def IfTemporary {σ : Type} (fuel : Nat) (fn : σ → Option GoError × σ)
    (sleep : Int → σ → σ) (s : σ) : Option (Option GoError × σ) :=
  defaultRetrier.IfTemporary fuel fn sleep s

/-! ### Observing a run

The tests observe a run by counting inside `fn` and by replacing `sleep` with a recording
function. `observeFn` and `observeSleep` do the same for an arbitrary `fn` and `sleep`:
they behave as the originals and append what happened to a log carried next to the state. -/

/-- What a run of the retrier does to its two dependencies. -/
inductive Event where
  /-- `fn` was invoked and returned `result` -/
  | called (result : Option GoError)
  /-- `sleep` was called with duration `d` -/
  | slept (d : Int)
deriving DecidableEq, Repr

/-- The function `fn`, recording each invocation and its result. -/
def observeFn {σ : Type} (fn : σ → Option GoError × σ) :
    σ × List Event → Option GoError × (σ × List Event) :=
  fun w => ((fn w.1).1, ((fn w.1).2, w.2 ++ [Event.called (fn w.1).1]))

/-- The function `sleep`, recording each call and its argument. -/
def observeSleep {σ : Type} (sleep : Int → σ → σ) (d : Int) :
    σ × List Event → σ × List Event :=
  fun w => (sleep d w.1, w.2 ++ [Event.slept d])

/-- The results of the invocations of `fn` in a log, in order. -/
def results : List Event → List (Option GoError)
  | [] => []
  | Event.called e :: l => e :: results l
  | Event.slept _ :: l => results l

/-- The durations of the calls of `sleep` in a log, in order. -/
def sleeps : List Event → List Int
  | [] => []
  | Event.called _ :: l => sleeps l
  | Event.slept d :: l => d :: sleeps l

/-- A function like the ones in the tests: the world state is the number of invocations
so far, and invocation number `count + 1` returns `callResults count`. -/
def scripted (callResults : Nat → Option GoError) : Nat → Option GoError × Nat :=
  fun count => (callResults count, count + 1)

/-- The test type `errTemporary`: `Temporary()` returns true. -/
def errTemporary : GoError :=
  GoError.value "error" { Temporary := some true }

/-! ### The invocations of a run, for stating the claims -/

/-- The world state in which invocation number `j + 1` of `fn` starts, in a run of the retrier
from state `s` that gets that far: `s` itself for the first invocation, afterwards the state
left by the previous invocation and the sleep that follows it. -/
def stateBefore {σ : Type} (r : Retrier) (fn : σ → Option GoError × σ) (sleep : Int → σ → σ)
    (s : σ) : Nat → σ
  | 0 => s
  | j + 1 => sleep (backoff r ((j : Int) + 1)) (fn (stateBefore r fn sleep s j)).2

/-- What invocation number `j + 1` of `fn` returns and the state it leaves, in a run of the
retrier from state `s` that gets that far. -/
def outcome {σ : Type} (r : Retrier) (fn : σ → Option GoError × σ) (sleep : Int → σ → σ)
    (s : σ) (j : Nat) : Option GoError × σ :=
  fn (stateBefore r fn sleep s j)

/-- The log of a run up to the start of invocation number `j + 1`: an invocation and the
sleep after it, `j` times. -/
def logBefore {σ : Type} (r : Retrier) (fn : σ → Option GoError × σ) (sleep : Int → σ → σ)
    (s : σ) : Nat → List Event
  | 0 => []
  | j + 1 => logBefore r fn sleep s j ++
      [Event.called (outcome r fn sleep s j).1, Event.slept (backoff r ((j : Int) + 1))]

/-- An example function for the retrier: every invocation returns an `errTemporary`. -/
def alwaysTemporary : Nat → Option GoError × Nat :=
  scripted (fun _ => some errTemporary)

/-- An example function for the retrier, as in `TestIfTemporary_Return`: the first
invocation returns an `errTemporary`, the later ones `errors.New("whatever")`. -/
def temporaryOnce : Nat → Option GoError × Nat :=
  scripted (fun count => if count = 0 then some errTemporary else errors.New "whatever")

/-- The replacement `sleep = func(d time.Duration) {}` of the tests. -/
def noSleep : Int → Nat → Nat :=
  fun _ count => count

end retry

/-! ## Package `time` of the standard library

Only what the source uses. A `Time` is an instant with a location; the monotonic clock
reading that `time.Now` attaches is not modelled, since none of the methods used on the value
of `time.Now` reads it (`Year`, `Month`, `Day`) and the other values come from `time.Date`,
`time.Parse` and `Add` on those. Dates are those of the proleptic Gregorian calendar, computed
from the day number by the usual era-based formulas. -/

namespace time

/-- A `*time.Location`, reduced to the offset it gives the instant at hand,
in seconds east of UTC. -/
structure Location where
  offset : Int
deriving DecidableEq, Repr

/-- The location `time.UTC`. -/
def UTC : Location := { offset := 0 }

/-- A `time.Time`: seconds since 1970-01-01T00:00:00Z, nanoseconds within the second,
and the location. -/
structure Time where
  unix : Int
  nsec : Int
  loc : Location
deriving DecidableEq, Repr

/-- The constant `time.Hour`, a `Duration` in nanoseconds. -/
def Hour : Int := 3600 * 1000000000

/-- Year, month and day of day number `days` (day 0 is 1970-01-01). -/
def civil (days : Int) : Int × Int × Int :=
  let z := days + 719468
  let era := z / 146097
  let doe := z - era * 146097
  let yoe := (doe - doe / 1460 + doe / 36524 - doe / 146096) / 365
  let doy := doe - (365 * yoe + yoe / 4 - yoe / 100)
  let mp := (5 * doy + 2) / 153
  let d := doy - (153 * mp + 2) / 5 + 1
  let m := if mp < 10 then mp + 3 else mp - 9
  let y := yoe + era * 400
  (if m ≤ 2 then y + 1 else y, m, d)

/-- Day number of the date `year`-`month`-`day`, for `month` in 1..12. -/
def daysSinceEpoch (year month day : Int) : Int :=
  let y := if month ≤ 2 then year - 1 else year
  let era := y / 400
  let yoe := y - era * 400
  let mp := (month + 9) % 12
  let doy := (153 * mp + 2) / 5 + day - 1
  let doe := yoe * 365 + yoe / 4 - yoe / 100 + doy
  era * 146097 + doe - 719468

/-- The method `Time.Year`: the year of the date in the location of `t`. -/
def Time.Year (t : Time) : Int := (civil ((t.unix + t.loc.offset) / 86400)).1

/-- The method `Time.Month`: the month of the date in the location of `t`. -/
def Time.Month (t : Time) : Int := (civil ((t.unix + t.loc.offset) / 86400)).2.1

/-- The method `Time.Day`: the day of the month of the date in the location of `t`. -/
def Time.Day (t : Time) : Int := (civil ((t.unix + t.loc.offset) / 86400)).2.2

/-- The function `time.Date`, for arguments that are in range (no normalisation). -/
def Date (year month day hour min sec nsec : Int) (loc : Location) : Time :=
  { unix := daysSinceEpoch year month day * 86400 + hour * 3600 + min * 60 + sec - loc.offset
    nsec := nsec
    loc := loc }

/-- The method `Time.Add`; Go's `/` and `%` truncate towards zero. -/
def Time.Add (t : Time) (d : Int) : Time :=
  let dsec := Int.tdiv d 1000000000
  let nsec := t.nsec + Int.tmod d 1000000000
  if nsec ≥ 1000000000 then
    { t with unix := t.unix + (dsec + 1), nsec := nsec - 1000000000 }
  else if nsec < 0 then
    { t with unix := t.unix + (dsec - 1), nsec := nsec + 1000000000 }
  else
    { t with unix := t.unix + dsec, nsec := nsec }

/-- The method `Time.Before`: `t` is an earlier instant than `u`. -/
def Time.Before (t u : Time) : Bool :=
  decide (t.unix < u.unix) || (decide (t.unix = u.unix) && decide (t.nsec < u.nsec))

end time

/-! ## Package `application` -/

namespace application

open time

/-- The struct `Launch` (`domain.go`). -/
structure Launch where
  ID : String
  Name : String
  NET : Time
  ProviderName : String
  Status : String
deriving DecidableEq, Repr

/-- The constant `LaunchStatusSucceeded = iota + 1`. -/
def LaunchStatusSucceeded : Int := 1

/-- The constant `LaunchStatusFailed`. -/
def LaunchStatusFailed : Int := 2

/-- The struct `SearchParams`; `Status` has type `LaunchStatus`, an `int`,
whose zero value is the unspecified status. -/
structure SearchParams where
  NETGreaterThanEqual : Time
  NETLessThanEqual : Time
  Status : Int := 0
deriving DecidableEq, Repr

/-- The type `errInvalid` of `launch.go`: a string with `Invalid() bool { return true }`. -/
def errInvalid (e : String) : GoError :=
  GoError.value e { Invalid := some true }

/-- The type `errNotFound` of `launchrepo.go`: a string with `Missing() bool { return true }`. -/
def errNotFound (e : String) : GoError :=
  GoError.value e { Missing := some true }

/-- What `Get` returns: `([]Launch, error)`. A nil slice and an empty slice are both `[]`. -/
abbrev GetResult := List Launch × Option GoError

/-- The interfaces `LaunchProvider` and `getter`: a `Get` method, acting on the world `σ`. -/
abbrev Getter (σ : Type) := SearchParams → σ → GetResult × σ

/-- The method `(*LaunchService).Today`; `launch` is the field of the service and
`timeNow` is `time.Now`. -/
def LaunchService.Today {σ : Type} (launch : Getter σ) (timeNow : σ → Time × σ) :
    σ → GetResult × σ :=
  fun s =>
    let (now, s1) := timeNow s
    let start := Date now.Year now.Month now.Day 0 0 0 0 UTC
    let end' := start.Add (24 * Hour)
    let ((launches, err), s2) := launch { NETGreaterThanEqual := start, NETLessThanEqual := end' } s1
    if err ≠ none then
      (([], errors.Wrap err "failed to get todays launches"), s2)
    else
      ((launches, none), s2)

/-- The method `(*LaunchService).GetFailed`. -/
def LaunchService.GetFailed {σ : Type} (launch : Getter σ) (start end' : Time) :
    σ → GetResult × σ :=
  fun s =>
    if end'.Before start then
      (([], some (errInvalid "end date cannot be before start date")), s)
    else
      let ((launches, err), s1) := launch
        { NETGreaterThanEqual := start, NETLessThanEqual := end', Status := LaunchStatusFailed } s
      if err ≠ none then
        (([], errors.Wrap err "failed to get failed launches"), s1)
      else
        ((launches, none), s1)

/-- The struct `launchDTO`. -/
structure launchDTO where
  ID : String
  Name : String
  Net : Time
  LaunchServiceProvider : Int × String
  Status : Int × String × String
deriving DecidableEq, Repr

/-- The function `mapLaunchDTOToDomain`. -/
def mapLaunchDTOToDomain (l : launchDTO) : Launch :=
  { ID := l.ID
    Name := l.Name
    NET := l.Net
    ProviderName := l.LaunchServiceProvider.2
    Status := l.Status.2.2 }

/-- The function `parseStatus`. -/
def parseStatus (status : Int) : Int :=
  if status = LaunchStatusSucceeded then 3
  else if status = LaunchStatusFailed then 4
  else 0

/-- A `url.URL` as `LaunchRepo.Get` fills it in. The query is kept as the `url.Values` it is
built from; its textual encoding is not modelled. -/
structure URL where
  Scheme : String
  Host : String
  Path : String
  RawQuery : List (String × List String)
deriving DecidableEq, Repr

/-- An `*http.Response`, reduced to the status code and to what `ioutil.ReadAll` returns
for its body. -/
structure Response where
  StatusCode : Int
  Body : String × Option GoError
deriving DecidableEq, Repr

/-- The standard-library calls of `LaunchRepo.Get`: `Time.Format` with the RFC3339 layout,
`http.Get` (the remote API, part of the world) and `json.Unmarshal` into
`struct{Count int; Results []launchDTO}`. -/
structure Remote (σ : Type) where
  Format : Time → String
  httpGet : URL → σ → (Response × Option GoError) × σ
  Unmarshal : String → (Int × List launchDTO) × Option GoError

/-- The method `(*LaunchRepo).Get`; `baseURL` is the field of the repository. -/
def LaunchRepo.Get {σ : Type} (std : Remote σ) (baseURL : String) : Getter σ :=
  fun params s =>
    let q := [("net__gte", [std.Format params.NETGreaterThanEqual]),
              ("net__lt", [std.Format params.NETLessThanEqual])]
    let status := parseStatus params.Status
    let q := if status ≠ 0 then q ++ [("status", [toString status])] else q
    let uri : URL := { Scheme := "https", Host := baseURL, Path := "/2.2.0/launch", RawQuery := q }
    let ((res, err), s1) := std.httpGet uri s
    if err ≠ none then
      (([], errors.Wrap err "http request failed"), s1)
    else
      let (b, err) := res.Body
      if err ≠ none then
        (([], errors.Wrap err "failed to read response body"), s1)
      else if res.StatusCode = 404 then
        (([], some (errNotFound "no launches found")), s1)
      else
        let (results, err) := std.Unmarshal b
        if err ≠ none then
          (([], errors.Wrap err "failed to unmarshal launches result"), s1)
        else
          ((results.2.map mapLaunchDTOToDomain, none), s1)

/-- The function literal that `LaunchRepoWithRetry.Get` passes to `IfTemporary`. Next to the
world it acts on the named results `launches, err` of the enclosing method, which it assigns. -/
def LaunchRepoWithRetry.Get.fn {σ : Type} (repo : Getter σ) (params : SearchParams) :
    σ × GetResult → Option GoError × (σ × GetResult) :=
  fun w =>
    let (res, s1) := repo params w.1
    (res.2, (s1, res))

/-- The method `(*LaunchRepoWithRetry).Get`; `repo` and `retry` are the fields of the
decorator and `sleep` is the package variable of `retry`. The named results start as
`nil, nil`; what `IfTemporary` returns is dropped. -/
def LaunchRepoWithRetry.Get {σ : Type} (fuel : Nat) (repo : Getter σ) (retry : retry.Retrier)
    (sleep : Int → σ → σ) (params : SearchParams) : σ → Option (GetResult × σ) :=
  fun s =>
    match retry.IfTemporary fuel (LaunchRepoWithRetry.Get.fn repo params)
        (fun d w => (sleep d w.1, w.2)) (s, ([], none)) with
    | none => none
    | some (_, (s1, res)) => some (res, s1)

/-- The local struct `logging` of `LaunchRepoWithLog.Get`; `Metadata` is the map with the
keys `"params"` and `"results"`. -/
structure logging where
  Message : String
  Timestamp : Time
  Metadata : SearchParams × GetResult
deriving DecidableEq, Repr

/-- The method `(*LaunchRepoWithLog).Get`; `repo` is the field of the decorator, `timeNow` is
`time.Now`, `Marshal` is `json.Marshal` at type `logging` and `Println` is `fmt.Println`.
The error of `json.Marshal` is dropped and the bytes it returned are printed. -/
def LaunchRepoWithLog.Get {σ : Type} (repo : Getter σ) (timeNow : σ → Time × σ)
    (Marshal : logging → String × Option GoError) (Println : String → σ → σ) : Getter σ :=
  fun params s =>
    let ((launches, err), s1) := repo params s
    let (t, s2) := timeNow s1
    let log : logging :=
      { Message := "called Get", Timestamp := t, Metadata := (params, (launches, err)) }
    let (str, _) := Marshal log
    ((launches, err), Println str s2)

/-- One call of a `Get` method: its argument and what it returned. -/
structure GetCall where
  params : SearchParams
  result : GetResult
deriving DecidableEq, Repr

/-- The repository `repo`, recording each call of `Get` next to the state. -/
def observeGet {σ : Type} (repo : Getter σ) : Getter (σ × List GetCall) :=
  fun params w =>
    ((repo params w.1).1,
      ((repo params w.1).2, w.2 ++ [{ params := params, result := (repo params w.1).1 }]))

end application

/-! ## Package `api` -/

namespace api

open time application

/-- An `http.ResponseWriter` as the tests use it (`httptest.ResponseRecorder`): the first
`WriteHeader` fixes the status code, and a `Write` before any `WriteHeader` fixes it at 200. -/
structure ResponseRecorder where
  wroteHeader : Bool := false
  Code : Nat := 200
  Body : String := ""
deriving DecidableEq, Repr

/-- The method `WriteHeader`. -/
def ResponseRecorder.WriteHeader (w : ResponseRecorder) (code : Nat) : ResponseRecorder :=
  if w.wroteHeader then w else { w with wroteHeader := true, Code := code }

/-- The method `Write`, as reached through `fmt.Fprint(w, ...)`. -/
def ResponseRecorder.Write (w : ResponseRecorder) (text : String) : ResponseRecorder :=
  let w1 := if w.wroteHeader then w else w.WriteHeader 200
  { w1 with Body := w1.Body ++ text }

/-- The function `isMissing`. -/
def isMissing (err : Option GoError) : Bool :=
  match errors.Cause err with
  | some e =>
    match e.methods.Missing with
    | some b => b
    | none => false
  | none => false

/-- The function `isTemporary` of package `api`. -/
def isTemporary (err : Option GoError) : Bool :=
  match errors.Cause err with
  | some e =>
    match e.methods.Temporary with
    | some b => b
    | none => false
  | none => false

/-- The function `isUnauthorized`. -/
def isUnauthorized (err : Option GoError) : Bool :=
  match errors.Cause err with
  | some e =>
    match e.methods.Unauthorized with
    | some b => b
    | none => false
  | none => false

/-- The function `isInvalid`. -/
def isInvalid (err : Option GoError) : Bool :=
  match errors.Cause err with
  | some e =>
    match e.methods.Invalid with
    | some b => b
    | none => false
  | none => false

/-- The function `handlerErrorHeader`. -/
def handlerErrorHeader (err : Option GoError) (w : ResponseRecorder) : ResponseRecorder :=
  if isMissing err then w.WriteHeader 404
  else if isTemporary err then w.WriteHeader 503
  else if isUnauthorized err then w.WriteHeader 401
  else if isInvalid err then w.WriteHeader 400
  else if err ≠ none then w.WriteHeader 500
  else w

/-- `fmt.Fprint(w, err)` for an error: the text of `err.Error()` (`<nil>` for nil). -/
def FprintError (w : ResponseRecorder) (err : Option GoError) : ResponseRecorder :=
  match err with
  | some e => w.Write e.Error
  | none => w.Write "<nil>"

/-- The method `(*Adapter).Today`; `Today` is the method of the field `launch` and
`Marshal` is `json.Marshal` at type `[]Launch`. -/
def Adapter.Today {σ : Type} (Today : σ → GetResult × σ)
    (Marshal : List Launch → String × Option GoError) (w : ResponseRecorder) :
    σ → ResponseRecorder × σ :=
  fun s =>
    let ((data, err), s1) := Today s
    if err ≠ none then
      (FprintError (handlerErrorHeader err w) err, s1)
    else
      let (resp, err) := Marshal data
      if err ≠ none then
        (FprintError (w.WriteHeader 500) err, s1)
      else
        (w.Write resp, s1)

/-- The method `url.Values.Get`: the first value of `key`, or the empty string. -/
def ValuesGet (v : String → List String) (key : String) : String :=
  match v key with
  | [] => ""
  | x :: _ => x

/-- The method `(*Adapter).Failed`; `v` is `r.URL.Query()`, `GetFailed` is the method of the
field `launch`, `Parse` is `time.Parse` with the layout `time.RFC3339` and `Marshal` is
`json.Marshal` at type `[]Launch`. -/
def Adapter.Failed {σ : Type} (GetFailed : Time → Time → σ → GetResult × σ)
    (Parse : String → Time × Option GoError)
    (Marshal : List Launch → String × Option GoError) (w : ResponseRecorder)
    (v : String → List String) : σ → ResponseRecorder × σ :=
  fun s =>
    let startParam := ValuesGet v "start"
    if startParam = "" then
      ((w.WriteHeader 400).Write ("missing required parameter: " ++ "start"), s)
    else
      let endParam := ValuesGet v "end"
      if endParam = "" then
        ((w.WriteHeader 400).Write ("missing required parameter: " ++ "end"), s)
      else
        let (start, err) := Parse startParam
        if err ≠ none then
          ((w.WriteHeader 400).Write ("badly formated parameter: " ++ "start"), s)
        else
          let (end', err) := Parse endParam
          if err ≠ none then
            ((w.WriteHeader 400).Write ("badly formated parameter: " ++ "end"), s)
          else
            let ((data, err), s1) := GetFailed start end' s
            if err ≠ none then
              (FprintError (handlerErrorHeader err w) err, s1)
            else
              let (resp, _) := Marshal data
              (w.Write resp, s1)

/-- The service method `GetFailed`, recording the arguments of each call next to the state. -/
def observeGetFailed {σ : Type} (GetFailed : Time → Time → σ → GetResult × σ) :
    Time → Time → σ × List (Time × Time) → GetResult × (σ × List (Time × Time)) :=
  fun start end' w =>
    ((GetFailed start end' w.1).1, ((GetFailed start end' w.1).2, w.2 ++ [(start, end')]))

end api

/-! ## The wiring of `main` and a world for the retry scenario -/

namespace main

open time application

/-- The method `Get` of the value `repoWithRetry` that `main` builds:
`NewLaunchRepoWithRetrier(NewLaunchRepoWithLog(repo), retry.Default())`. The base repository
`repo` is a parameter; in `main` it is `NewLaunchRepo("lldev.thespacedevs.com")`. -/
def repoWithRetry {σ : Type} (fuel : Nat) (repo : Getter σ) (timeNow : σ → Time × σ)
    (Marshal : logging → String × Option GoError) (Println : String → σ → σ)
    (sleep : Int → σ → σ) : SearchParams → σ → Option (GetResult × σ) :=
  LaunchRepoWithRetry.Get fuel (LaunchRepoWithLog.Get repo timeNow Marshal Println)
    retry.Default sleep

/-- A world in which to run the wired repository: how often the base repository has been
called, the sleeps made, the lines printed, and the time `time.Now` returns. -/
structure World where
  gets : Nat
  slept : List Int
  stdout : List String
  now : Time
deriving DecidableEq, Repr

/-- The world before anything has happened. -/
def World.start (now : Time) : World :=
  { gets := 0, slept := [], stdout := [], now := now }

/-- `sleep` in this world: the duration is recorded. -/
def World.sleep (d : Int) (w : World) : World :=
  { w with slept := w.slept ++ [d] }

/-- `time.Now` in this world. -/
def World.timeNow (w : World) : Time × World :=
  (w.now, w)

/-- `fmt.Println` in this world: the line is appended to the output. -/
def World.Println (line : String) (w : World) : World :=
  { w with stdout := w.stdout ++ [line] }

/-- A base repository that fails with `e1`, then with `e2`, and from the third call on
succeeds with `launches`. -/
def failsTwice (e1 e2 : GoError) (launches : List Launch) : Getter World :=
  fun _ w =>
    (if w.gets = 0 then ([], some e1)
     else if w.gets = 1 then ([], some e2)
     else (launches, none),
     { w with gets := w.gets + 1 })

end main

/-! ## Helpers for stating the claims -/

/-- A world operation `f`, run next to a log it does not touch. -/
def besideLog {σ α L : Type} (f : σ → α × σ) : σ × L → α × (σ × L) :=
  fun w => ((f w.1).1, ((f w.1).2, w.2))

/-- A world update `f`, run next to a log it does not touch. -/
def besideLogUpdate {σ L : Type} (f : Int → σ → σ) : Int → σ × L → σ × L :=
  fun d w => (f d w.1, w.2)

/-- The deepest cause of `err` has the classification method `method` and it returns true. -/
def reports (err : Option GoError) (method : Methods → Option Bool) : Bool :=
  match errors.Cause err with
  | some cause => method cause.methods == some true
  | none => false

/-- The method `Time.UnixNano`: the instant as nanoseconds since the epoch (exact here). -/
def time.Time.UnixNano (t : time.Time) : Int :=
  t.unix * 1000000000 + t.nsec

/-- The instant 2021-09-03T00:00:00Z. -/
def sept3 : time.Time := { unix := 1630627200, nsec := 0, loc := time.UTC }

/-- The instant 2021-09-02T00:00:00Z. -/
def sept2 : time.Time := { unix := 1630540800, nsec := 0, loc := time.UTC }

/-- An example repository: no launches, no error, no effect on the world. -/
def emptyRepo : application.Getter Unit :=
  fun _ s => (([], none), s)

/-- An example remote API: every request is answered with status 404 and an empty body. -/
def remote404 : application.Remote Unit :=
  { Format := fun _ => ""
    httpGet := fun _ s => (({ StatusCode := 404, Body := ("", none) }, none), s)
    Unmarshal := fun _ => ((0, []), none) }

/-- An example clock: `time.Now` returns `sept3`. -/
def clockSept3 : Unit → time.Time × Unit :=
  fun s => (sept3, s)

/-- An example `json.Marshal`: always `{}` and no error. -/
def marshalBraces {α : Type} : α → String × Option GoError :=
  fun _ => ("{}", none)

/-- The instant 2021-09-03T20:00:00Z as `time.Now` returns it in a process whose local zone
is nine hours east of UTC, where the date is 2021-09-04. -/
def eveningUTC9 : time.Time := { unix := 1630699200, nsec := 0, loc := { offset := 32400 } }

/-- An example clock: `time.Now` returns `eveningUTC9`. -/
def clockUTC9 : Unit → time.Time × Unit :=
  fun s => (eveningUTC9, s)

/-- An example `time.Parse`: the two texts of the scenarios parse, everything else fails. -/
def parseExample (text : String) : time.Time × Option GoError :=
  if text = "2021-09-03T00:00:00Z" then (sept3, none)
  else if text = "2021-09-02T00:00:00Z" then (sept2, none)
  else ({ unix := 0, nsec := 0, loc := time.UTC }, errors.New "cannot parse")

/-- An example service method `GetFailed`: no launches, no error. -/
def getFailedEmpty : time.Time → time.Time → Unit → application.GetResult × Unit :=
  fun _ _ s => (([], none), s)

/-- The query of `/failed?start=2021-09-03T00:00:00Z&end=2021-09-03T00:00:00Z`. -/
def queryExample : String → List String :=
  fun key => if key = "start" ∨ key = "end" then ["2021-09-03T00:00:00Z"] else []

/-! # Theorems -/

namespace retry

section loop
variable {σ : Type} (r : Retrier) (fn : σ → Option GoError × σ) (sleep : Int → σ → σ)

theorem loop_step_retry (fuel : Nat) (attempt : Int) (s : σ)
    (ht : isTemporary (fn s).1 = true) (ha : attempt < r.attemps) :
    Retrier.loop r fn sleep (fuel + 1) attempt s
      = Retrier.loop r fn sleep fuel (attempt + 1) (sleep (backoff r attempt) (fn s).2) := by
  have hna : ¬ (attempt ≥ r.attemps) := by omega
  simp [Retrier.loop, ht, hna]

theorem loop_step_stop (fuel : Nat) (attempt : Int) (s : σ)
    (h : isTemporary (fn s).1 = false ∨ r.attemps ≤ attempt) :
    Retrier.loop r fn sleep (fuel + 1) attempt s = some (fn s) := by
  rcases h with h | h
  · simp [Retrier.loop, h]
  · simp [Retrier.loop, h]

/-- While the invocations return temporary errors and attempts are left, the loop goes on. -/
theorem loop_skip (s : σ) (j : Nat)
    (ht : ∀ i, i < j → isTemporary (outcome r fn sleep s i).1 = true)
    (hj : j = 0 ∨ (j : Int) < r.attemps) (fuel : Nat) :
    Retrier.loop r fn sleep (fuel + j) 1 s
      = Retrier.loop r fn sleep fuel ((j : Int) + 1) (stateBefore r fn sleep s j) := by
  induction j generalizing fuel with
  | zero => simp [stateBefore]
  | succ j ih =>
    have hj2 : ((j : Int) + 1) < r.attemps := by
      rcases hj with hj | hj
      · omega
      · push_cast at hj; exact hj
    have h1 := ih (fun i hi => ht i (Nat.lt_succ_of_lt hi)) (Or.inr (by omega)) (fuel + 1)
    have e : fuel + (j + 1) = fuel + 1 + j := by omega
    rw [e, h1, loop_step_retry r fn sleep fuel _ _ (ht j (Nat.lt_succ_self j)) hj2]
    simp [stateBefore]

/-- The run of the retrier when invocation `k + 1` is the first that is not retried. -/
theorem run_eq (s : σ) (k : Nat)
    (ht : ∀ i, i < k → isTemporary (outcome r fn sleep s i).1 = true)
    (hk : k = 0 ∨ (k : Int) < r.attemps)
    (hstop : isTemporary (outcome r fn sleep s k).1 = false ∨ r.attemps ≤ (k : Int) + 1)
    (fuel : Nat) (hfuel : k + 1 ≤ fuel) :
    r.IfTemporary fuel fn sleep s = some (outcome r fn sleep s k) := by
  obtain ⟨f, rfl⟩ : ∃ f, fuel = (f + 1) + k := ⟨fuel - (k + 1), by omega⟩
  unfold Retrier.IfTemporary
  rw [loop_skip r fn sleep s k ht hk (f + 1)]
  exact loop_step_stop r fn sleep f _ _ hstop

/-- Every run stops at some invocation: the first one that returns something not temporary,
or invocation number `n + 1` when all before it are temporary. -/
theorem exists_stop (s : σ) (n : Nat) :
    ∃ k, k ≤ n ∧ (∀ i, i < k → isTemporary (outcome r fn sleep s i).1 = true) ∧
      (isTemporary (outcome r fn sleep s k).1 = false ∨ k = n) := by
  induction n with
  | zero => exact ⟨0, le_refl 0, fun i hi => absurd hi (Nat.not_lt_zero i), Or.inr rfl⟩
  | succ n ih =>
    obtain ⟨k, hk, ht, hs⟩ := ih
    rcases hs with hs | hs
    · exact ⟨k, Nat.le_succ_of_le hk, ht, Or.inl hs⟩
    · subst hs
      cases hc : isTemporary (outcome r fn sleep s k).1 with
      | false => exact ⟨k, Nat.le_succ k, ht, Or.inl hc⟩
      | true =>
        refine ⟨k + 1, le_refl _, ?_, Or.inr rfl⟩
        intro i hi
        rcases Nat.lt_succ_iff_lt_or_eq.mp hi with h | h
        · exact ht i h
        · subst h; exact hc

end loop

section observe
variable {σ : Type} (r : Retrier) (fn : σ → Option GoError × σ) (sleep : Int → σ → σ)

theorem results_append (l1 l2 : List Event) : results (l1 ++ l2) = results l1 ++ results l2 := by
  induction l1 with
  | nil => rfl
  | cons e l ih => cases e <;> simp [results, ih]

theorem sleeps_append (l1 l2 : List Event) : sleeps (l1 ++ l2) = sleeps l1 ++ sleeps l2 := by
  induction l1 with
  | nil => rfl
  | cons e l ih => cases e <;> simp [sleeps, ih]

theorem stateBefore_observe (s : σ) (l : List Event) (j : Nat) :
    stateBefore r (observeFn fn) (observeSleep sleep) (s, l) j
      = (stateBefore r fn sleep s j, l ++ logBefore r fn sleep s j) := by
  induction j with
  | zero => simp [stateBefore, logBefore]
  | succ j ih => simp [stateBefore, logBefore, ih, observeFn, observeSleep, outcome]

theorem outcome_observe (s : σ) (l : List Event) (j : Nat) :
    outcome r (observeFn fn) (observeSleep sleep) (s, l) j
      = ((outcome r fn sleep s j).1, ((outcome r fn sleep s j).2,
          l ++ logBefore r fn sleep s j ++ [Event.called (outcome r fn sleep s j).1])) := by
  simp [outcome, stateBefore_observe, observeFn]

theorem length_logBefore (s : σ) (j : Nat) : (logBefore r fn sleep s j).length = 2 * j := by
  induction j with
  | zero => rfl
  | succ j ih => simp [logBefore, ih]; omega

theorem results_logBefore (s : σ) (j : Nat) :
    results (logBefore r fn sleep s j)
      = List.map (fun i : Nat => (outcome r fn sleep s i).1) (List.range j) := by
  induction j with
  | zero => rfl
  | succ j ih => simp [logBefore, results_append, ih, results, List.range_succ]

theorem sleeps_logBefore (s : σ) (j : Nat) :
    sleeps (logBefore r fn sleep s j)
      = List.map (fun i : Nat => backoff r ((i : Int) + 1)) (List.range j) := by
  induction j with
  | zero => rfl
  | succ j ih => simp [logBefore, sleeps_append, ih, sleeps, List.range_succ]

theorem logBefore_called (s : σ) (j i : Nat) (hi : i < j) :
    (logBefore r fn sleep s j)[2 * i]? = some (Event.called (outcome r fn sleep s i).1) := by
  induction j with
  | zero => omega
  | succ j ih =>
    rcases Nat.lt_succ_iff_lt_or_eq.mp hi with h | h
    · have hl : 2 * i < (logBefore r fn sleep s j).length := by
        rw [length_logBefore]; omega
      rw [logBefore, List.getElem?_append_left hl]
      exact ih h
    · subst h
      have hl : (logBefore r fn sleep s i).length ≤ 2 * i := by
        rw [length_logBefore]
      rw [logBefore, List.getElem?_append_right hl, length_logBefore]
      simp

theorem logBefore_slept (s : σ) (j i : Nat) (hi : i < j) :
    (logBefore r fn sleep s j)[2 * i + 1]? = some (Event.slept (backoff r ((i : Int) + 1))) := by
  induction j with
  | zero => omega
  | succ j ih =>
    rcases Nat.lt_succ_iff_lt_or_eq.mp hi with h | h
    · have hl : 2 * i + 1 < (logBefore r fn sleep s j).length := by
        rw [length_logBefore]; omega
      rw [logBefore, List.getElem?_append_left hl]
      exact ih h
    · subst h
      have hl : (logBefore r fn sleep s i).length ≤ 2 * i + 1 := by
        rw [length_logBefore]; omega
      rw [logBefore, List.getElem?_append_right hl, length_logBefore]
      simp

/-- The observed run when invocation `k + 1` is the first that is not retried. -/
theorem run_observe_eq (s : σ) (k : Nat)
    (ht : ∀ i, i < k → isTemporary (outcome r fn sleep s i).1 = true)
    (hk : k = 0 ∨ (k : Int) < r.attemps)
    (hstop : isTemporary (outcome r fn sleep s k).1 = false ∨ r.attemps ≤ (k : Int) + 1)
    (fuel : Nat) (hfuel : k + 1 ≤ fuel) :
    r.IfTemporary fuel (observeFn fn) (observeSleep sleep) (s, [])
      = some ((outcome r fn sleep s k).1, ((outcome r fn sleep s k).2,
          logBefore r fn sleep s k ++ [Event.called (outcome r fn sleep s k).1])) := by
  have h := run_eq r (observeFn fn) (observeSleep sleep) (s, []) k
    (by intro i hi; rw [outcome_observe]; exact ht i hi) hk
    (by rw [outcome_observe]; exact hstop) fuel hfuel
  rw [h, outcome_observe]
  simp

/-- In range, the conversion to `int64` changes nothing. -/
theorem wrapInt64_eq (x : Int) (h1 : -2 ^ 63 ≤ x) (h2 : x < 2 ^ 63) : wrapInt64 x = x := by
  unfold wrapInt64
  rw [Int.emod_eq_of_lt (by omega) (by omega)]
  omega

/-- When the longest delay `(N - 1) * baseTimeout` fits `int64`, so does every earlier one. -/
theorem backoff_eq (N i : Nat) (hi : i + 1 < N)
    (h1 : -2 ^ 63 ≤ ((N : Int) - 1) * r.baseTimeout)
    (h2 : ((N : Int) - 1) * r.baseTimeout < 2 ^ 63) :
    backoff r ((i : Int) + 1) = ((i : Int) + 1) * r.baseTimeout := by
  unfold backoff
  have hle : ((i : Int) + 1) ≤ (N : Int) - 1 := by omega
  have hpos : (0 : Int) ≤ (i : Int) + 1 := by omega
  rcases le_or_lt 0 r.baseTimeout with hb | hb
  · have a1 : ((i : Int) + 1) * r.baseTimeout ≤ ((N : Int) - 1) * r.baseTimeout :=
      mul_le_mul_of_nonneg_right hle hb
    have a2 : 0 ≤ ((i : Int) + 1) * r.baseTimeout := mul_nonneg hpos hb
    exact wrapInt64_eq _ (by omega) (by omega)
  · have a1 : ((N : Int) - 1) * r.baseTimeout ≤ ((i : Int) + 1) * r.baseTimeout :=
      mul_le_mul_of_nonpos_right hle (le_of_lt hb)
    have a2 : ((i : Int) + 1) * r.baseTimeout ≤ 0 :=
      mul_nonpos_of_nonneg_of_nonpos hpos (le_of_lt hb)
    exact wrapInt64_eq _ (by omega) (by omega)

end observe

section claims
variable {σ : Type}

theorem results_final (r : Retrier) (fn : σ → Option GoError × σ) (sleep : Int → σ → σ)
    (s : σ) (k : Nat) (e : Option GoError) :
    results (logBefore r fn sleep s k ++ [Event.called e])
      = List.map (fun i : Nat => (outcome r fn sleep s i).1) (List.range k) ++ [e] := by
  simp [results_append, results_logBefore, results]

theorem sleeps_final (r : Retrier) (fn : σ → Option GoError × σ) (sleep : Int → σ → σ)
    (s : σ) (k : Nat) (e : Option GoError) :
    sleeps (logBefore r fn sleep s k ++ [Event.called e])
      = List.map (fun i : Nat => backoff r ((i : Int) + 1)) (List.range k) := by
  simp [sleeps_append, sleeps_logBefore, sleeps]

/-- C1: with `attemps = N ≥ 1`, a function all of whose invocations in the run return a
temporary error is invoked exactly `N` times and the error of invocation `N` is returned;
the default retrier has `N = 3`. -/
theorem IfTemporary_constantly_temporary (r : Retrier) (N : Nat) (hN : 1 ≤ N)
    (hr : r.attemps = (N : Int)) (fn : σ → Option GoError × σ) (sleep : Int → σ → σ) (s : σ)
    (htemp : ∀ j, j < N → isTemporary (outcome r fn sleep s j).1 = true)
    (fuel : Nat) (hfuel : N ≤ fuel) :
    r.IfTemporary fuel fn sleep s = some (outcome r fn sleep s (N - 1)) ∧
    (∃ s1 log, r.IfTemporary fuel (observeFn fn) (observeSleep sleep) (s, [])
        = some ((outcome r fn sleep s (N - 1)).1, (s1, log)) ∧
      (results log).length = N ∧
      (results log)[N - 1]? = some (outcome r fn sleep s (N - 1)).1) ∧
    (r = defaultRetrier → N = 3) := by
  have ht : ∀ i, i < N - 1 → isTemporary (outcome r fn sleep s i).1 = true :=
    fun i hi => htemp i (by omega)
  have hk : N - 1 = 0 ∨ ((N - 1 : Nat) : Int) < r.attemps := Or.inr (by omega)
  have hstop : isTemporary (outcome r fn sleep s (N - 1)).1 = false ∨
      r.attemps ≤ ((N - 1 : Nat) : Int) + 1 := Or.inr (by omega)
  refine ⟨run_eq r fn sleep s (N - 1) ht hk hstop fuel (by omega), ?_, ?_⟩
  · refine ⟨_, _, run_observe_eq r fn sleep s (N - 1) ht hk hstop fuel (by omega), ?_, ?_⟩
    · rw [results_final]; simp; omega
    · rw [results_final, List.getElem?_append_right (by simp)]; simp
  · intro h
    subst h
    have h3 : ((3 : Nat) : Int) = (N : Int) := hr
    omega

/-- C2: with `attemps = N ≥ k ≥ 1`, when the first `k - 1` invocations return temporary errors
and invocation `k` returns nil or an error that is not temporary, the function is invoked
exactly `k` times and the result of invocation `k` is returned as it is. -/
theorem IfTemporary_stops_at_first_non_temporary (r : Retrier) (N k : Nat) (hk1 : 1 ≤ k)
    (hkN : k ≤ N) (hr : r.attemps = (N : Int)) (fn : σ → Option GoError × σ)
    (sleep : Int → σ → σ) (s : σ)
    (htemp : ∀ j, j + 1 < k → isTemporary (outcome r fn sleep s j).1 = true)
    (hlast : isTemporary (outcome r fn sleep s (k - 1)).1 = false)
    (fuel : Nat) (hfuel : k ≤ fuel) :
    r.IfTemporary fuel fn sleep s = some (outcome r fn sleep s (k - 1)) ∧
    ∃ s1 log, r.IfTemporary fuel (observeFn fn) (observeSleep sleep) (s, [])
        = some ((outcome r fn sleep s (k - 1)).1, (s1, log)) ∧
      (results log).length = k ∧
      (results log)[k - 1]? = some (outcome r fn sleep s (k - 1)).1 := by
  have ht : ∀ i, i < k - 1 → isTemporary (outcome r fn sleep s i).1 = true :=
    fun i hi => htemp i (by omega)
  have hk : k - 1 = 0 ∨ ((k - 1 : Nat) : Int) < r.attemps := Or.inr (by omega)
  refine ⟨run_eq r fn sleep s (k - 1) ht hk (Or.inl hlast) fuel (by omega), ?_⟩
  refine ⟨_, _, run_observe_eq r fn sleep s (k - 1) ht hk (Or.inl hlast) fuel (by omega), ?_, ?_⟩
  · rw [results_final]; simp; omega
  · rw [results_final, List.getElem?_append_right (by simp)]; simp

/-- C3: with `attemps = N ≥ 1` and `(N - 1) * baseTimeout` in the range of `int64`, a run that
makes `k` invocations has a log of `2 * k - 1` events in which invocations and sleeps
alternate, starting and ending with an invocation; sleep number `i` lasts `i * baseTimeout`.
A run on constantly temporary errors has `k = N`, a run whose first result is not temporary
has `k = 1`. -/
theorem IfTemporary_sleeps (r : Retrier) (N : Nat) (hN : 1 ≤ N) (hr : r.attemps = (N : Int))
    (hlo : -2 ^ 63 ≤ ((N : Int) - 1) * r.baseTimeout)
    (hhi : ((N : Int) - 1) * r.baseTimeout < 2 ^ 63)
    (fn : σ → Option GoError × σ) (sleep : Int → σ → σ) (s : σ)
    (fuel : Nat) (hfuel : N ≤ fuel) :
    ∃ err s1 log k, r.IfTemporary fuel (observeFn fn) (observeSleep sleep) (s, [])
        = some (err, (s1, log)) ∧
      (results log).length = k ∧ 1 ≤ k ∧ k ≤ N ∧
      log.length = 2 * k - 1 ∧
      (∀ j, j < k → ∃ e, log[2 * j]? = some (Event.called e)) ∧
      (∀ i, 1 ≤ i → i < k → log[2 * i - 1]? = some (Event.slept ((i : Int) * r.baseTimeout))) ∧
      sleeps log = List.map (fun i : Nat => ((i : Int) + 1) * r.baseTimeout) (List.range (k - 1)) ∧
      ((∀ j, j < N → isTemporary (outcome r fn sleep s j).1 = true) → k = N) ∧
      (isTemporary (outcome r fn sleep s 0).1 = false → k = 1) := by
  obtain ⟨k0, hk0, ht, hs⟩ := exists_stop r fn sleep s (N - 1)
  have hk : k0 = 0 ∨ (k0 : Int) < r.attemps := Or.inr (by omega)
  have hstop : isTemporary (outcome r fn sleep s k0).1 = false ∨
      r.attemps ≤ (k0 : Int) + 1 := by
    rcases hs with hs | hs
    · exact Or.inl hs
    · exact Or.inr (by omega)
  refine ⟨_, _, _, k0 + 1, run_observe_eq r fn sleep s k0 ht hk hstop fuel (by omega),
    ?_, by omega, by omega, ?_, ?_, ?_, ?_, ?_, ?_⟩
  · rw [results_final]; simp
  · simp [length_logBefore]; omega
  · intro j hj
    rcases Nat.lt_succ_iff_lt_or_eq.mp hj with h | h
    · refine ⟨(outcome r fn sleep s j).1, ?_⟩
      rw [List.getElem?_append_left (by rw [length_logBefore]; omega)]
      exact logBefore_called r fn sleep s k0 j h
    · subst h
      refine ⟨(outcome r fn sleep s j).1, ?_⟩
      rw [List.getElem?_append_right (by rw [length_logBefore]), length_logBefore]
      simp
  · intro i hi1 hik
    obtain ⟨i0, rfl⟩ : ∃ i0, i = i0 + 1 := ⟨i - 1, by omega⟩
    have e1 : 2 * (i0 + 1) - 1 = 2 * i0 + 1 := by omega
    rw [e1, List.getElem?_append_left (by rw [length_logBefore]; omega),
      logBefore_slept r fn sleep s k0 i0 (by omega),
      backoff_eq r N i0 (by omega) hlo hhi]
    push_cast
    rfl
  · rw [sleeps_final]
    simp only [Nat.add_sub_cancel]
    apply List.map_congr_left
    intro i hi
    rw [List.mem_range] at hi
    exact backoff_eq r N i (by omega) hlo hhi
  · intro hall
    rcases hs with hs | hs
    · have := hall k0 (by omega)
      rw [hs] at this
      exact absurd this (by decide)
    · omega
  · intro h0
    rcases Nat.eq_zero_or_pos k0 with h | h
    · omega
    · have := ht 0 h
      rw [h0] at this
      exact absurd this (by decide)

theorem IfTemporary_constantly_temporary_witness :
    (∀ j, j < 3 → isTemporary (outcome defaultRetrier alwaysTemporary noSleep 0 j).1 = true) ∧
    defaultRetrier.IfTemporary 3 alwaysTemporary noSleep 0
      = some (outcome defaultRetrier alwaysTemporary noSleep 0 (3 - 1)) ∧
    (∃ s1 log, defaultRetrier.IfTemporary 3 (observeFn alwaysTemporary) (observeSleep noSleep)
        (0, []) = some ((outcome defaultRetrier alwaysTemporary noSleep 0 (3 - 1)).1, (s1, log)) ∧
      (results log).length = 3 ∧
      (results log)[3 - 1]? = some (outcome defaultRetrier alwaysTemporary noSleep 0 (3 - 1)).1) ∧
    (defaultRetrier = defaultRetrier → 3 = 3) :=
  ⟨fun _ _ => rfl,
    IfTemporary_constantly_temporary defaultRetrier 3 (by decide) rfl alwaysTemporary noSleep 0
      (fun _ _ => rfl) 3 (le_refl 3)⟩

theorem IfTemporary_stops_at_first_non_temporary_witness :
    (∀ j, j + 1 < 2 → isTemporary (outcome defaultRetrier temporaryOnce noSleep 0 j).1 = true) ∧
    isTemporary (outcome defaultRetrier temporaryOnce noSleep 0 (2 - 1)).1 = false ∧
    defaultRetrier.IfTemporary 2 temporaryOnce noSleep 0
      = some (outcome defaultRetrier temporaryOnce noSleep 0 (2 - 1)) ∧
    ∃ s1 log, defaultRetrier.IfTemporary 2 (observeFn temporaryOnce) (observeSleep noSleep)
        (0, []) = some ((outcome defaultRetrier temporaryOnce noSleep 0 (2 - 1)).1, (s1, log)) ∧
      (results log).length = 2 ∧
      (results log)[2 - 1]? = some (outcome defaultRetrier temporaryOnce noSleep 0 (2 - 1)).1 :=
  have h1 : ∀ j, j + 1 < 2 →
      isTemporary (outcome defaultRetrier temporaryOnce noSleep 0 j).1 = true := by
    intro j hj
    have h0 : j = 0 := by omega
    subst h0
    rfl
  ⟨h1, rfl,
    IfTemporary_stops_at_first_non_temporary defaultRetrier 3 2 (by decide) (by decide) rfl
      temporaryOnce noSleep 0 h1 rfl 2 (le_refl 2)⟩

theorem IfTemporary_sleeps_witness :
    -2 ^ 63 ≤ (((3 : Nat) : Int) - 1) * defaultRetrier.baseTimeout ∧
    (((3 : Nat) : Int) - 1) * defaultRetrier.baseTimeout < 2 ^ 63 ∧
    ∃ err s1 log k, defaultRetrier.IfTemporary 3 (observeFn alwaysTemporary)
        (observeSleep noSleep) (0, []) = some (err, (s1, log)) ∧
      (results log).length = k ∧ 1 ≤ k ∧ k ≤ 3 ∧
      log.length = 2 * k - 1 ∧
      (∀ j, j < k → ∃ e, log[2 * j]? = some (Event.called e)) ∧
      (∀ i, 1 ≤ i → i < k →
        log[2 * i - 1]? = some (Event.slept ((i : Int) * defaultRetrier.baseTimeout))) ∧
      sleeps log
        = List.map (fun i : Nat => ((i : Int) + 1) * defaultRetrier.baseTimeout)
            (List.range (k - 1)) ∧
      ((∀ j, j < 3 →
        isTemporary (outcome defaultRetrier alwaysTemporary noSleep 0 j).1 = true) → k = 3) ∧
      (isTemporary (outcome defaultRetrier alwaysTemporary noSleep 0 0).1 = false → k = 1) :=
  ⟨by decide, by decide,
    IfTemporary_sleeps defaultRetrier 3 (by decide) rfl (by decide) (by decide)
      alwaysTemporary noSleep 0 3 (le_refl 3)⟩

end claims

end retry

namespace application

open time

section service
variable {σ : Type}

/-- `Before` is the order of the instants, for values with nanoseconds in `[0, 10^9)`. -/
theorem Before_iff (t u : Time) (ht0 : 0 ≤ t.nsec) (ht1 : t.nsec < 1000000000)
    (hu0 : 0 ≤ u.nsec) (hu1 : u.nsec < 1000000000) :
    t.Before u = true ↔ t.UnixNano < u.UnixNano := by
  unfold Time.Before Time.UnixNano
  simp only [Bool.or_eq_true, Bool.and_eq_true, decide_eq_true_eq]
  constructor
  · intro h; omega
  · intro h; omega

theorem errors_Cause_Wrap (err : Option GoError) (message : String) :
    errors.Cause (errors.Wrap err message) = errors.Cause err := by
  cases err with
  | none => rfl
  | some e => rfl

/-- C4: when `end'` is an earlier instant than `start`, `GetFailed` returns no launches and an
error whose deepest cause has `Invalid() = true`, and the repository is not called; otherwise
the repository is called once, with the range and the failed status, and the error returned is
the repository's error wrapped (nil when that is nil), never the validation error. -/
theorem GetFailed_rejects_end_before_start (launch : Getter σ) (start end' : Time) (s : σ)
    (hs0 : 0 ≤ start.nsec) (hs1 : start.nsec < 1000000000)
    (he0 : 0 ≤ end'.nsec) (he1 : end'.nsec < 1000000000) :
    (end'.UnixNano < start.UnixNano →
      ∃ e, LaunchService.GetFailed (observeGet launch) start end' (s, [])
          = (([], some e), (s, [])) ∧
        api.isInvalid (some e) = true ∧ reports (some e) Methods.Invalid = true) ∧
    (start.UnixNano ≤ end'.UnixNano →
      ∃ res s1,
        launch { NETGreaterThanEqual := start, NETLessThanEqual := end',
                 Status := LaunchStatusFailed } s = (res, s1) ∧
        LaunchService.GetFailed (observeGet launch) start end' (s, [])
          = ((if res.2 = none then res.1 else [],
              errors.Wrap res.2 "failed to get failed launches"),
             (s1, [{ params := { NETGreaterThanEqual := start, NETLessThanEqual := end',
                                 Status := LaunchStatusFailed },
                     result := res }])) ∧
        errors.Wrap res.2 "failed to get failed launches"
          ≠ some (errInvalid "end date cannot be before start date")) := by
  have hB := Before_iff end' start he0 he1 hs0 hs1
  constructor
  · intro h
    refine ⟨errInvalid "end date cannot be before start date", ?_, rfl, rfl⟩
    simp [LaunchService.GetFailed, hB.mpr h]
  · intro h
    have hF : end'.Before start = false := by
      cases hb : end'.Before start with
      | false => rfl
      | true => have := hB.mp hb; omega
    rcases hl : launch ⟨start, end', LaunchStatusFailed⟩ s with ⟨⟨ls, e⟩, s1⟩
    refine ⟨(ls, e), s1, rfl, ?_, ?_⟩
    · cases e with
      | none => simp [LaunchService.GetFailed, hF, observeGet, hl, errors.Wrap]
      | some e => simp [LaunchService.GetFailed, hF, observeGet, hl, errors.Wrap]
    · cases e with
      | none => simp [errors.Wrap]
      | some e => simp [errors.Wrap, errInvalid]

theorem GetFailed_rejects_end_before_start_witness :
    sept2.UnixNano < sept3.UnixNano ∧
    ∃ e, LaunchService.GetFailed (observeGet emptyRepo) sept3 sept2 ((), [])
        = (([], some e), ((), [])) ∧
      api.isInvalid (some e) = true ∧ reports (some e) Methods.Invalid = true :=
  ⟨by decide,
    (GetFailed_rejects_end_before_start emptyRepo sept3 sept2 () (by decide) (by decide)
      (by decide) (by decide)).1 (by decide)⟩

end service

end application

namespace api

open time application

section adapter
variable {σ : Type}

theorem isMissing_eq_reports (err : Option GoError) :
    isMissing err = reports err Methods.Missing := by
  unfold isMissing reports
  cases errors.Cause err with
  | none => rfl
  | some c =>
    cases h : c.methods.Missing with
    | none => simp [h]
    | some b => cases b <;> simp [h]

theorem isTemporary_eq_reports (err : Option GoError) :
    isTemporary err = reports err Methods.Temporary := by
  unfold isTemporary reports
  cases errors.Cause err with
  | none => rfl
  | some c =>
    cases h : c.methods.Temporary with
    | none => simp [h]
    | some b => cases b <;> simp [h]

theorem isUnauthorized_eq_reports (err : Option GoError) :
    isUnauthorized err = reports err Methods.Unauthorized := by
  unfold isUnauthorized reports
  cases errors.Cause err with
  | none => rfl
  | some c =>
    cases h : c.methods.Unauthorized with
    | none => simp [h]
    | some b => cases b <;> simp [h]

theorem isInvalid_eq_reports (err : Option GoError) :
    isInvalid err = reports err Methods.Invalid := by
  unfold isInvalid reports
  cases errors.Cause err with
  | none => rfl
  | some c =>
    cases h : c.methods.Invalid with
    | none => simp [h]
    | some b => cases b <;> simp [h]

/-- C5: on a fresh response, `handlerErrorHeader` of a non-nil error sets the status of the
first classification, in the order Missing, Temporary, Unauthorized, Invalid, that the deepest
cause of the error reports (method present and returning true), and 500 when there is none.
For an error that is its own deepest cause this reads off its methods: a method that is absent
or returns false is passed over. -/
theorem handlerErrorHeader_first_match (err : GoError) :
    handlerErrorHeader (some err) {} =
      { wroteHeader := true
        Code :=
          if reports (some err) Methods.Missing then 404
          else if reports (some err) Methods.Temporary then 503
          else if reports (some err) Methods.Unauthorized then 401
          else if reports (some err) Methods.Invalid then 400
          else 500
        Body := "" } ∧
    ∀ (text : String) (m : Methods),
      (handlerErrorHeader (some (GoError.value text m)) {}).Code =
        if m.Missing = some true then 404
        else if m.Temporary = some true then 503
        else if m.Unauthorized = some true then 401
        else if m.Invalid = some true then 400
        else 500 := by
  have key : ∀ e : GoError, handlerErrorHeader (some e) {} =
      { wroteHeader := true
        Code :=
          if reports (some e) Methods.Missing then 404
          else if reports (some e) Methods.Temporary then 503
          else if reports (some e) Methods.Unauthorized then 401
          else if reports (some e) Methods.Invalid then 400
          else 500
        Body := "" } := by
    intro e
    unfold handlerErrorHeader
    rw [isMissing_eq_reports, isTemporary_eq_reports, isUnauthorized_eq_reports,
      isInvalid_eq_reports]
    cases reports (some e) Methods.Missing <;>
    cases reports (some e) Methods.Temporary <;>
    cases reports (some e) Methods.Unauthorized <;>
    cases reports (some e) Methods.Invalid <;>
    simp [ResponseRecorder.WriteHeader]
  refine ⟨key err, ?_⟩
  intro text m
  rw [key]
  simp [reports, errors.Cause, GoError.deepest, GoError.methods]

theorem isMissing_Wrap (err : Option GoError) (message : String) :
    isMissing (errors.Wrap err message) = isMissing err := by
  unfold isMissing; rw [errors_Cause_Wrap]

theorem isTemporary_Wrap (err : Option GoError) (message : String) :
    isTemporary (errors.Wrap err message) = isTemporary err := by
  unfold isTemporary; rw [errors_Cause_Wrap]

theorem isUnauthorized_Wrap (err : Option GoError) (message : String) :
    isUnauthorized (errors.Wrap err message) = isUnauthorized err := by
  unfold isUnauthorized; rw [errors_Cause_Wrap]

theorem isInvalid_Wrap (err : Option GoError) (message : String) :
    isInvalid (errors.Wrap err message) = isInvalid err := by
  unfold isInvalid; rw [errors_Cause_Wrap]

/-- The observed run of `Today`: one call of the repository, whose error comes back wrapped. -/
theorem Today_observed (launch : Getter σ) (timeNow : σ → Time × σ) (s : σ)
    (p : SearchParams)
    (hp : p = ⟨Date (timeNow s).1.Year (timeNow s).1.Month (timeNow s).1.Day 0 0 0 0 UTC,
      (Date (timeNow s).1.Year (timeNow s).1.Month (timeNow s).1.Day 0 0 0 0 UTC).Add (24 * Hour),
      0⟩) :
    LaunchService.Today (observeGet launch) (besideLog timeNow) (s, [])
      = ((if (launch p (timeNow s).2).1.2 = none then (launch p (timeNow s).2).1.1 else [],
          errors.Wrap (launch p (timeNow s).2).1.2 "failed to get todays launches"),
         ((launch p (timeNow s).2).2, [⟨p, (launch p (timeNow s).2).1⟩])) := by
  subst hp
  rcases hl : launch
    ⟨Date (timeNow s).1.Year (timeNow s).1.Month (timeNow s).1.Day 0 0 0 0 UTC,
      (Date (timeNow s).1.Year (timeNow s).1.Month (timeNow s).1.Day 0 0 0 0 UTC).Add (24 * Hour),
      0⟩ (timeNow s).2 with ⟨⟨ls, e⟩, s1⟩
  cases e with
  | none => simp [LaunchService.Today, observeGet, besideLog, hl, errors.Wrap]
  | some e => simp [LaunchService.Today, observeGet, besideLog, hl, errors.Wrap]

/-- The observed run of `GetFailed` on a valid range: one call of the repository, whose
error comes back wrapped. -/
theorem GetFailed_observed (launch : Getter σ) (start end' : Time) (s : σ)
    (hB : end'.Before start = false) (p : SearchParams)
    (hp : p = ⟨start, end', LaunchStatusFailed⟩) :
    LaunchService.GetFailed (observeGet launch) start end' (s, [])
      = ((if (launch p s).1.2 = none then (launch p s).1.1 else [],
          errors.Wrap (launch p s).1.2 "failed to get failed launches"),
         ((launch p s).2, [⟨p, (launch p s).1⟩])) := by
  subst hp
  rcases hl : launch ⟨start, end', LaunchStatusFailed⟩ s with ⟨⟨ls, e⟩, s1⟩
  cases e with
  | none => simp [LaunchService.GetFailed, hB, observeGet, hl, errors.Wrap]
  | some e => simp [LaunchService.GetFailed, hB, observeGet, hl, errors.Wrap]

/-- The observed run of `Today`, without the argument of the call spelt out. -/
theorem Today_observed_call (launch : Getter σ) (timeNow : σ → Time × σ) (s : σ) :
    ∃ c s1, LaunchService.Today (observeGet launch) (besideLog timeNow) (s, [])
      = ((if c.result.2 = none then c.result.1 else [],
          errors.Wrap c.result.2 "failed to get todays launches"), (s1, [c])) :=
  ⟨⟨⟨Date (timeNow s).1.Year (timeNow s).1.Month (timeNow s).1.Day 0 0 0 0 UTC,
      (Date (timeNow s).1.Year (timeNow s).1.Month (timeNow s).1.Day 0 0 0 0 UTC).Add (24 * Hour),
      0⟩, _⟩, _, Today_observed launch timeNow s _ rfl⟩

/-- The observed run of `GetFailed` on a valid range, without the argument of the call
spelt out. -/
theorem GetFailed_observed_call (launch : Getter σ) (start end' : Time) (s : σ)
    (hB : end'.Before start = false) :
    ∃ c s1, LaunchService.GetFailed (observeGet launch) start end' (s, [])
      = ((if c.result.2 = none then c.result.1 else [],
          errors.Wrap c.result.2 "failed to get failed launches"), (s1, [c])) :=
  ⟨⟨⟨start, end', LaunchStatusFailed⟩, _⟩, _, GetFailed_observed launch start end' s hB _ rfl⟩

/-- The response of `Adapter.Today` when the service returns a non-nil error. -/
theorem Adapter_Today_error (Today : σ → GetResult × σ)
    (Marshal : List Launch → String × Option GoError) (s : σ) (e : GoError)
    (h : (Today s).1.2 = some e) :
    Adapter.Today Today Marshal {} s
      = (FprintError (handlerErrorHeader (some e) {}) (some e), (Today s).2) := by
  rcases ht : Today s with ⟨⟨ls, e1⟩, s1⟩
  rw [ht] at h
  simp only at h
  subst h
  simp [Adapter.Today, ht]

/-- A Missing-classified error gives the status 404, also after its text is written. -/
theorem FprintError_missing (e : GoError) (hm : isMissing (some e) = true) :
    (FprintError (handlerErrorHeader (some e) {}) (some e)).Code = 404 := by
  simp [handlerErrorHeader, hm, FprintError, ResponseRecorder.Write,
    ResponseRecorder.WriteHeader]

/-- `Adapter.Today` leaves the world as the service's `Today` leaves it. -/
theorem Adapter_Today_state (Today : σ → GetResult × σ)
    (Marshal : List Launch → String × Option GoError) (w : ResponseRecorder) (s : σ) :
    (Adapter.Today Today Marshal w s).2 = (Today s).2 := by
  rcases ht : Today s with ⟨⟨ls, e⟩, s1⟩
  cases e with
  | some e => simp [Adapter.Today, ht]
  | none =>
    rcases hm : Marshal ls with ⟨resp, e2⟩
    cases e2 <;> simp [Adapter.Today, ht, hm]

/-- C6: the error `Today` returns is the repository's error wrapped, and so is the error of
`GetFailed` on a valid range; wrapping leaves the answer of each of `isMissing`,
`isTemporary`, `isUnauthorized` and `isInvalid` as it is. When the repository's error is
classified Missing, `Adapter.Today` over the service answers 404, and `LaunchRepo.Get`
returns such an error, `errNotFound("no launches found")`, when the remote answers 404. -/
theorem classification_survives_wrapping (launch : Getter σ) (timeNow : σ → Time × σ)
    (Marshal : List Launch → String × Option GoError) (start end' : Time) (s : σ) :
    (∃ c ls e s1, LaunchService.Today (observeGet launch) (besideLog timeNow) (s, [])
        = ((ls, e), (s1, [c])) ∧
      e = errors.Wrap c.result.2 "failed to get todays launches" ∧
      isMissing e = isMissing c.result.2 ∧ isTemporary e = isTemporary c.result.2 ∧
      isUnauthorized e = isUnauthorized c.result.2 ∧ isInvalid e = isInvalid c.result.2) ∧
    (end'.Before start = false →
      ∃ c ls e s1, LaunchService.GetFailed (observeGet launch) start end' (s, [])
          = ((ls, e), (s1, [c])) ∧
        e = errors.Wrap c.result.2 "failed to get failed launches" ∧
        isMissing e = isMissing c.result.2 ∧ isTemporary e = isTemporary c.result.2 ∧
        isUnauthorized e = isUnauthorized c.result.2 ∧ isInvalid e = isInvalid c.result.2) ∧
    (∃ c w s1, Adapter.Today (LaunchService.Today (observeGet launch) (besideLog timeNow))
        Marshal {} (s, []) = (w, (s1, [c])) ∧
      (isMissing c.result.2 = true → w.Code = 404) ∧
      (c.result.2 = some (errNotFound "no launches found") →
        w = { wroteHeader := true, Code := 404,
              Body := "failed to get todays launches: no launches found" })) ∧
    (∀ (std : Remote σ) (baseURL b : String) (p : SearchParams),
      (∀ uri, (std.httpGet uri s).1 = ({ StatusCode := 404, Body := (b, none) }, none)) →
      (LaunchRepo.Get std baseURL p s).1 = ([], some (errNotFound "no launches found"))) := by
  refine ⟨?_, ?_, ?_, ?_⟩
  · exact ⟨_, _, _, _, Today_observed launch timeNow s _ rfl, rfl, isMissing_Wrap _ _,
      isTemporary_Wrap _ _, isUnauthorized_Wrap _ _, isInvalid_Wrap _ _⟩
  · intro hB
    exact ⟨_, _, _, _, GetFailed_observed launch start end' s hB _ rfl, rfl, isMissing_Wrap _ _,
      isTemporary_Wrap _ _, isUnauthorized_Wrap _ _, isInvalid_Wrap _ _⟩
  · obtain ⟨c, s1, h⟩ := Today_observed_call launch timeNow s
    refine ⟨c, (Adapter.Today (LaunchService.Today (observeGet launch) (besideLog timeNow))
      Marshal {} (s, [])).1, s1, ?_, ?_, ?_⟩
    · exact Prod.ext rfl (by rw [Adapter_Today_state, h])
    · intro hm
      cases he : c.result.2 with
      | none => rw [he] at hm; exact absurd hm (by decide)
      | some e =>
        rw [he] at h hm
        have hm2 : isMissing (errors.Wrap (some e) "failed to get todays launches") = true := by
          rw [isMissing_Wrap]; exact hm
        obtain ⟨e2, he2⟩ : ∃ e2, errors.Wrap (some e) "failed to get todays launches" = some e2 :=
          ⟨_, rfl⟩
        rw [he2] at h hm2
        rw [Adapter_Today_error _ Marshal _ _ (by rw [h])]
        exact FprintError_missing e2 hm2
    · intro he
      rw [he] at h
      rw [Adapter_Today_error _ Marshal _ _ (by rw [h]; rfl)]
      rfl
  · intro std baseURL b p h404
    have h1 := h404
    simp [LaunchRepo.Get, h1]

theorem classification_survives_wrapping_witness :
    sept3.Before sept3 = false ∧
    (∃ c ls e s1, LaunchService.GetFailed (observeGet emptyRepo) sept3 sept3 ((), [])
        = ((ls, e), (s1, [c])) ∧
      e = errors.Wrap c.result.2 "failed to get failed launches" ∧
      isMissing e = isMissing c.result.2 ∧ isTemporary e = isTemporary c.result.2 ∧
      isUnauthorized e = isUnauthorized c.result.2 ∧ isInvalid e = isInvalid c.result.2) ∧
    (∀ uri, (remote404.httpGet uri ()).1 = ({ StatusCode := 404, Body := ("", none) }, none)) ∧
    (LaunchRepo.Get remote404 "lldev.thespacedevs.com" ⟨sept3, sept3, 0⟩ ()).1
      = ([], some (errNotFound "no launches found")) ∧
    Adapter.Today (LaunchService.Today (LaunchRepo.Get remote404 "lldev.thespacedevs.com")
        clockSept3) marshalBraces {} ()
      = ({ wroteHeader := true, Code := 404,
           Body := "failed to get todays launches: no launches found" }, ()) :=
  ⟨rfl,
    (classification_survives_wrapping emptyRepo clockSept3 marshalBraces sept3 sept3 ()).2.1 rfl,
    fun _ => rfl,
    (classification_survives_wrapping emptyRepo clockSept3 marshalBraces sept3 sept3 ()).2.2.2
      remote404 "lldev.thespacedevs.com" "" ⟨sept3, sept3, 0⟩ (fun _ => rfl),
    by decide⟩

/-- C10: `Adapter.Failed` on a fresh response answers 400 without calling `GetFailed` when
`start` is missing or empty, else when `end` is missing or empty, else when `start` does not
parse, else when `end` does not parse, and the body names that first failing check; when all
four checks pass `GetFailed` is called once, with the parsed `start` and `end`. A request
without query parameters gets 400 and `missing required parameter: start`. -/
theorem Adapter_Failed_checks_parameters (GetFailed : Time → Time → σ → GetResult × σ)
    (Parse : String → Time × Option GoError)
    (Marshal : List Launch → String × Option GoError) (v : String → List String) (s : σ) :
    ((v "start" = [] ∨ ∃ rest, v "start" = "" :: rest) →
      Adapter.Failed (observeGetFailed GetFailed) Parse Marshal {} v (s, [])
        = ({ wroteHeader := true, Code := 400, Body := "missing required parameter: start" },
           (s, []))) ∧
    (∀ a as, v "start" = a :: as → a ≠ "" → (v "end" = [] ∨ ∃ rest, v "end" = "" :: rest) →
      Adapter.Failed (observeGetFailed GetFailed) Parse Marshal {} v (s, [])
        = ({ wroteHeader := true, Code := 400, Body := "missing required parameter: end" },
           (s, []))) ∧
    (∀ a as b bs, v "start" = a :: as → a ≠ "" → v "end" = b :: bs → b ≠ "" →
      (Parse a).2 ≠ none →
      Adapter.Failed (observeGetFailed GetFailed) Parse Marshal {} v (s, [])
        = ({ wroteHeader := true, Code := 400, Body := "badly formated parameter: start" },
           (s, []))) ∧
    (∀ a as b bs, v "start" = a :: as → a ≠ "" → v "end" = b :: bs → b ≠ "" →
      (Parse a).2 = none → (Parse b).2 ≠ none →
      Adapter.Failed (observeGetFailed GetFailed) Parse Marshal {} v (s, [])
        = ({ wroteHeader := true, Code := 400, Body := "badly formated parameter: end" },
           (s, []))) ∧
    (∀ a as b bs, v "start" = a :: as → a ≠ "" → v "end" = b :: bs → b ≠ "" →
      (Parse a).2 = none → (Parse b).2 = none →
      ∃ w s1, Adapter.Failed (observeGetFailed GetFailed) Parse Marshal {} v (s, [])
        = (w, (s1, [((Parse a).1, (Parse b).1)]))) ∧
    Adapter.Failed (observeGetFailed GetFailed) Parse Marshal {} (fun _ => []) (s, [])
      = ({ wroteHeader := true, Code := 400, Body := "missing required parameter: start" },
         (s, [])) := by
  have hstart : ∀ u : String → List String, (u "start" = [] ∨ ∃ rest, u "start" = "" :: rest) →
      Adapter.Failed (observeGetFailed GetFailed) Parse Marshal {} u (s, [])
        = ({ wroteHeader := true, Code := 400, Body := "missing required parameter: start" },
           (s, [])) := by
    intro u h
    have hg : ValuesGet u "start" = "" := by
      rcases h with h | ⟨rest, h⟩ <;> simp [ValuesGet, h]
    simp [Adapter.Failed, hg, ResponseRecorder.Write, ResponseRecorder.WriteHeader]
  refine ⟨hstart v, ?_, ?_, ?_, ?_, hstart _ (Or.inl rfl)⟩
  · intro a as ha hne h
    have hg : ValuesGet v "start" = a := by simp [ValuesGet, ha]
    have hg2 : ValuesGet v "end" = "" := by
      rcases h with h | ⟨rest, h⟩ <;> simp [ValuesGet, h]
    simp [Adapter.Failed, hg, hg2, hne, ResponseRecorder.Write, ResponseRecorder.WriteHeader]
  · intro a as b bs ha hne hb hnb hp
    have hg : ValuesGet v "start" = a := by simp [ValuesGet, ha]
    have hg2 : ValuesGet v "end" = b := by simp [ValuesGet, hb]
    simp [Adapter.Failed, hg, hg2, hne, hnb, hp, ResponseRecorder.Write,
      ResponseRecorder.WriteHeader]
  · intro a as b bs ha hne hb hnb hp hq
    have hg : ValuesGet v "start" = a := by simp [ValuesGet, ha]
    have hg2 : ValuesGet v "end" = b := by simp [ValuesGet, hb]
    simp [Adapter.Failed, hg, hg2, hne, hnb, hp, hq, ResponseRecorder.Write,
      ResponseRecorder.WriteHeader]
  · intro a as b bs ha hne hb hnb hp hq
    have hg : ValuesGet v "start" = a := by simp [ValuesGet, ha]
    have hg2 : ValuesGet v "end" = b := by simp [ValuesGet, hb]
    rcases hG : GetFailed (Parse a).1 (Parse b).1 s with ⟨⟨ls, e⟩, s1⟩
    cases e with
    | none =>
      exact ⟨_, s1, by
        simp [Adapter.Failed, hg, hg2, hne, hnb, hp, hq, observeGetFailed, hG]; rfl⟩
    | some e =>
      exact ⟨_, s1, by
        simp [Adapter.Failed, hg, hg2, hne, hnb, hp, hq, observeGetFailed, hG]; rfl⟩

theorem Adapter_Failed_checks_parameters_witness :
    queryExample "start" = ["2021-09-03T00:00:00Z"] ∧
    queryExample "end" = ["2021-09-03T00:00:00Z"] ∧
    (parseExample "2021-09-03T00:00:00Z").2 = none ∧
    ∃ w s1, Adapter.Failed (observeGetFailed getFailedEmpty) parseExample marshalBraces {}
        queryExample ((), [])
      = (w, (s1, [((parseExample "2021-09-03T00:00:00Z").1,
                   (parseExample "2021-09-03T00:00:00Z").1)])) :=
  ⟨by decide, by decide, by decide,
    (Adapter_Failed_checks_parameters getFailedEmpty parseExample marshalBraces queryExample
      ()).2.2.2.2.1 "2021-09-03T00:00:00Z" [] "2021-09-03T00:00:00Z" [] (by decide) (by decide)
      (by decide) (by decide) (by decide) (by decide)⟩

end adapter

end api

namespace application

open time retry

section decorators
variable {σ : Type}

/-- The error the function literal returns is the one it has just assigned to `err`. -/
theorem fn_returns_assigned (repo : Getter σ) (p : SearchParams) (w : σ × GetResult) :
    (LaunchRepoWithRetry.Get.fn repo p w).1 = (LaunchRepoWithRetry.Get.fn repo p w).2.2.2 :=
  rfl

/-- The calls of the inner `Get` made before invocation `j + 1` of the function literal:
one per earlier invocation, each with `p` and with the result that invocation assigned. -/
theorem calls_before (r : Retrier) (repo : Getter σ) (sleep : Int → σ → σ)
    (p : SearchParams) (s : σ) (j : Nat) :
    (stateBefore r (LaunchRepoWithRetry.Get.fn (observeGet repo) p)
        (fun d w => (besideLogUpdate sleep d w.1, w.2)) ((s, []), ([], none)) j).1.2
      = List.map (fun i : Nat => (⟨p, (outcome r (LaunchRepoWithRetry.Get.fn (observeGet repo) p)
          (fun d w => (besideLogUpdate sleep d w.1, w.2)) ((s, []), ([], none)) i).2.2⟩ : GetCall))
        (List.range j) := by
  induction j with
  | zero => rfl
  | succ j ih =>
    rw [List.range_succ, List.map_append, ← ih]
    simp [stateBefore, outcome, LaunchRepoWithRetry.Get.fn, observeGet, besideLogUpdate]

/-- The calls of the inner `Get` after invocation `k + 1` of the function literal. -/
theorem calls_after (r : Retrier) (repo : Getter σ) (sleep : Int → σ → σ)
    (p : SearchParams) (s : σ) (k : Nat) :
    (outcome r (LaunchRepoWithRetry.Get.fn (observeGet repo) p)
        (fun d w => (besideLogUpdate sleep d w.1, w.2)) ((s, []), ([], none)) k).2.1.2
      = List.map (fun i : Nat => (⟨p, (outcome r (LaunchRepoWithRetry.Get.fn (observeGet repo) p)
          (fun d w => (besideLogUpdate sleep d w.1, w.2)) ((s, []), ([], none)) i).2.2⟩ : GetCall))
        (List.range (k + 1)) := by
  rw [List.range_succ, List.map_append, ← calls_before]
  simp [outcome, LaunchRepoWithRetry.Get.fn, observeGet]

/-- C7: with `attemps = N ≥ 1`, `LaunchRepoWithRetry.Get` calls the inner `Get` between 1 and
`N` times, always with `p`; every call but the last returned a temporary error, and the last
either did not or was call number `N`; the pair returned is the pair of the last call. The
errors of the inner calls are, in order, the results of the invocations `IfTemporary` makes. -/
theorem LaunchRepoWithRetry_Get_returns_last_call (r : Retrier) (N : Nat) (hN : 1 ≤ N)
    (hr : r.attemps = (N : Int)) (repo : Getter σ) (sleep : Int → σ → σ) (p : SearchParams)
    (s : σ) (fuel : Nat) (hfuel : N ≤ fuel) :
    ∃ res s1 calls,
      LaunchRepoWithRetry.Get fuel (observeGet repo) r (besideLogUpdate sleep) p (s, [])
        = some (res, (s1, calls)) ∧
      1 ≤ calls.length ∧ calls.length ≤ N ∧
      (∀ c, c ∈ calls → c.params = p) ∧
      calls.getLast? = some ⟨p, res⟩ ∧
      (∀ c, c ∈ calls.dropLast → isTemporary c.result.2 = true) ∧
      (isTemporary res.2 = false ∨ calls.length = N) ∧
      ∃ w log, r.IfTemporary fuel (observeFn (LaunchRepoWithRetry.Get.fn (observeGet repo) p))
          (observeSleep (fun d w => (besideLogUpdate sleep d w.1, w.2)))
          (((s, []), ([], none)), []) = some (res.2, (w, log)) ∧
        results log = calls.map (fun c => c.result.2) := by
  obtain ⟨k0, hk0, ht, hs⟩ := exists_stop r (LaunchRepoWithRetry.Get.fn (observeGet repo) p)
    (fun d w => (besideLogUpdate sleep d w.1, w.2)) ((s, []), ([], none)) (N - 1)
  have hk : k0 = 0 ∨ (k0 : Int) < r.attemps := Or.inr (by omega)
  have hstop : isTemporary (outcome r (LaunchRepoWithRetry.Get.fn (observeGet repo) p)
      (fun d w => (besideLogUpdate sleep d w.1, w.2)) ((s, []), ([], none)) k0).1 = false ∨
      r.attemps ≤ (k0 : Int) + 1 := by
    rcases hs with hs | hs
    · exact Or.inl hs
    · exact Or.inr (by omega)
  have hrun := run_eq r _ _ _ k0 ht hk hstop fuel (by omega)
  have hobs := run_observe_eq r _ _ _ k0 ht hk hstop fuel (by omega)
  have hcalls := calls_after r repo sleep p s k0
  refine ⟨(outcome r (LaunchRepoWithRetry.Get.fn (observeGet repo) p)
      (fun d w => (besideLogUpdate sleep d w.1, w.2)) ((s, []), ([], none)) k0).2.2,
    (outcome r (LaunchRepoWithRetry.Get.fn (observeGet repo) p)
      (fun d w => (besideLogUpdate sleep d w.1, w.2)) ((s, []), ([], none)) k0).2.1.1,
    (outcome r (LaunchRepoWithRetry.Get.fn (observeGet repo) p)
      (fun d w => (besideLogUpdate sleep d w.1, w.2)) ((s, []), ([], none)) k0).2.1.2,
    ?_, ?_, ?_, ?_, ?_, ?_, ?_, ?_⟩
  · unfold LaunchRepoWithRetry.Get
    simp only [hrun]
  · rw [hcalls]; simp
  · rw [hcalls]; simp; omega
  · rw [hcalls]
    intro c hc
    obtain ⟨i, _, rfl⟩ := List.mem_map.mp hc
    rfl
  · rw [hcalls, List.range_succ, List.map_append]
    simp
  · rw [hcalls, List.range_succ, List.map_append]
    intro c hc
    simp only [List.map_cons, List.map_nil, List.dropLast_concat] at hc
    obtain ⟨i, hi, rfl⟩ := List.mem_map.mp hc
    exact ht i (List.mem_range.mp hi)
  · rcases hs with hs | hs
    · exact Or.inl hs
    · right; rw [hcalls]; simp; omega
  · refine ⟨_, _, hobs, ?_⟩
    rw [results_final, hcalls, List.range_succ, List.map_append, List.map_append]
    simp only [List.map_map, List.map_cons, List.map_nil]
    rfl

theorem LaunchRepoWithRetry_Get_returns_last_call_witness :
    ∃ res s1 calls,
      LaunchRepoWithRetry.Get 3 (observeGet (main.failsTwice retry.errTemporary retry.errTemporary []))
          defaultRetrier (besideLogUpdate main.World.sleep) ⟨sept3, sept3, 0⟩
          (main.World.start sept3, [])
        = some (res, (s1, calls)) ∧
      1 ≤ calls.length ∧ calls.length ≤ 3 ∧
      (∀ c, c ∈ calls → c.params = ⟨sept3, sept3, 0⟩) ∧
      calls.getLast? = some ⟨⟨sept3, sept3, 0⟩, res⟩ ∧
      (∀ c, c ∈ calls.dropLast → isTemporary c.result.2 = true) ∧
      (isTemporary res.2 = false ∨ calls.length = 3) ∧
      ∃ w log, defaultRetrier.IfTemporary 3
          (observeFn (LaunchRepoWithRetry.Get.fn
            (observeGet (main.failsTwice retry.errTemporary retry.errTemporary []))
            ⟨sept3, sept3, 0⟩))
          (observeSleep (fun d w => (besideLogUpdate main.World.sleep d w.1, w.2)))
          (((main.World.start sept3, []), ([], none)), []) = some (res.2, (w, log)) ∧
        results log = calls.map (fun c => c.result.2) :=
  LaunchRepoWithRetry_Get_returns_last_call defaultRetrier 3 (by decide) rfl
    (main.failsTwice retry.errTemporary retry.errTemporary []) main.World.sleep
    ⟨sept3, sept3, 0⟩ (main.World.start sept3) 3 (le_refl 3)

end decorators

end application

namespace main

open time application retry

theorem isTemporary_nil : retry.isTemporary none = false := rfl

/-- C8 (amended): in the chain wired by `main`, over a base repository that fails twice with
temporary errors and then succeeds, `Get` returns the success after three calls of the base
repository and two sleeps, and the logging decorator prints one record for each of the three
attempts, the two failures included. -/
theorem wired_chain_logs_every_attempt (e1 e2 : GoError) (launches : List Launch)
    (p : SearchParams) (Marshal : logging → String × Option GoError) (now : Time)
    (h1 : retry.isTemporary (some e1) = true) (h2 : retry.isTemporary (some e2) = true)
    (fuel : Nat) (hfuel : 3 ≤ fuel) :
    repoWithRetry fuel (failsTwice e1 e2 launches) World.timeNow Marshal World.Println
        World.sleep p (World.start now)
      = some ((launches, none),
          { gets := 3
            slept := [1000000000, 2000000000]
            stdout :=
              [(Marshal ⟨"called Get", now, (p, ([], some e1))⟩).1,
               (Marshal ⟨"called Get", now, (p, ([], some e2))⟩).1,
               (Marshal ⟨"called Get", now, (p, (launches, none))⟩).1]
            now := now }) := by
  obtain ⟨f, rfl⟩ : ∃ f, fuel = f + 3 := ⟨fuel - 3, by omega⟩
  simp [repoWithRetry, LaunchRepoWithRetry.Get, Retrier.IfTemporary, Retrier.loop,
    LaunchRepoWithRetry.Get.fn, LaunchRepoWithLog.Get, failsTwice, World.timeNow,
    World.Println, World.sleep, World.start, h1, h2, isTemporary_nil, retry.Default,
    defaultRetrier, backoff, wrapInt64, Second]

theorem wired_chain_logs_every_attempt_witness :
    retry.isTemporary (some errTemporary) = true ∧
    repoWithRetry 3 (failsTwice errTemporary errTemporary []) World.timeNow marshalBraces
        World.Println World.sleep ⟨sept3, sept3, 0⟩ (World.start sept3)
      = some (([], none),
          { gets := 3
            slept := [1000000000, 2000000000]
            stdout :=
              [(marshalBraces (⟨"called Get", sept3,
                  (⟨sept3, sept3, 0⟩, ([], some errTemporary))⟩ : logging)).1,
               (marshalBraces (⟨"called Get", sept3,
                  (⟨sept3, sept3, 0⟩, ([], some errTemporary))⟩ : logging)).1,
               (marshalBraces (⟨"called Get", sept3, (⟨sept3, sept3, 0⟩, ([], none))⟩ : logging)).1]
            now := sept3 }) :=
  ⟨rfl, wired_chain_logs_every_attempt errTemporary errTemporary [] ⟨sept3, sept3, 0⟩
    marshalBraces sept3 rfl rfl 3 (le_refl 3)⟩

/-- C8 as stated fails: on a base repository that fails twice with `errTemporary` and then
succeeds, the wired chain returns the success after three calls, and three lines have been
printed, not one. -/
theorem wired_chain_single_log_record_counterexample :
    ∃ w, repoWithRetry 3 (failsTwice errTemporary errTemporary []) World.timeNow marshalBraces
        World.Println World.sleep ⟨sept3, sept3, 0⟩ (World.start sept3)
        = some (([], none), w) ∧
      w.gets = 3 ∧ w.stdout.length = 3 ∧ ¬ (w.stdout.length = 1) :=
  ⟨{ gets := 3, slept := [1000000000, 2000000000], stdout := ["{}", "{}", "{}"], now := sept3 },
    by decide, rfl, rfl, by decide⟩

end main

namespace application

open time

/-- C9 at a failing input: at 2021-09-03T20:00:00Z in a zone nine hours east of UTC, `Today`
asks the repository once, with unspecified status, for the 24 hours from
2021-09-04T00:00:00Z, the UTC midnight of the local date. That lower bound is later than
`now`; the UTC date that contains `now` starts at 2021-09-03T00:00:00Z. -/
theorem Today_takes_local_date :
    (LaunchService.Today (observeGet emptyRepo) (besideLog clockUTC9) ((), [])).2.2
      = [⟨⟨{ unix := 1630713600, nsec := 0, loc := UTC },
            { unix := 1630800000, nsec := 0, loc := UTC }, 0⟩, ([], none)⟩] ∧
    eveningUTC9.Before { unix := 1630713600, nsec := 0, loc := UTC } = true ∧
    eveningUTC9.UnixNano < ({ unix := 1630713600, nsec := 0, loc := UTC } : Time).UnixNano ∧
    Date 2021 9 3 0 0 0 0 UTC = sept3 ∧
    sept3.UnixNano ≤ eveningUTC9.UnixNano ∧
    eveningUTC9.UnixNano < (sept3.Add (24 * Hour)).UnixNano := by
  decide

end application
